import Mathlib

/-!
Verification development for the lacunaRity package fragment
(`src/src/RcppExports.cpp`).

The C++ file declares the native routine
`DataFrame gliding_box(arma::ucube C, IntegerVector box_sizes)`,
wraps it in the exported symbol `_lacunaRity_gliding_box`
(inside a `BEGIN_RCPP`/`END_RCPP` envelope), and registers that single
symbol in `CallEntries` / `R_init_lacunaRity`.  The body of
`gliding_box` itself is not part of the provided sources, so the
gliding-box computation below is modelled from the specification
(sections 3, 4, 7, 8 of the design document); the wrapper and the
registration table are embedded directly from the C++ source.

Numeric conventions of the embedding: voxel values are `Nat`
(`arma::ucube` has unsigned elements), statistics are rationals `ℚ`,
and the floating-point NaN sentinel is modelled as `none` in
`Option ℚ`.
-/

/-- Modelled from the spec: `OccupancyCube` — an immutable 3-D array of
non-negative integers with dimensions `Xdim × Ydim × Zdim`.  (The
implementation of `gliding_box`, which consumes it, is missing from the
provided sources.)  The `voxel` function gives the value of the cell at
coordinates `(i, j, k)`; only cells with `i < Xdim`, `j < Ydim`,
`k < Zdim` are ever read. -/
structure OccupancyCube where
  Xdim : Nat
  Ydim : Nat
  Zdim : Nat
  voxel : Nat → Nat → Nat → Nat

/-- Modelled from the spec: the mass of one window instance — the sum of
all voxel values inside the axis-aligned cubic window of edge `r` whose
lower corner is `(i, j, k)`. -/
def windowMass (c : OccupancyCube) (r i j k : Nat) : Nat :=
  ((List.range r).map (fun di =>
    ((List.range r).map (fun dj =>
      ((List.range r).map (fun dk =>
        c.voxel (i + di) (j + dj) (k + dk))).sum)).sum)).sum

/-- Modelled from the spec: the list of masses of every fully contained,
step-1, axis-aligned cubic window of edge `r`: lower corners `(i, j, k)`
with `0 ≤ i ≤ X - r`, `0 ≤ j ≤ Y - r`, `0 ≤ k ≤ Z - r`.  For
`r > min(X, Y, Z)` at least one of the ranges is empty and the list is
empty. -/
def boxMasses (c : OccupancyCube) (r : Nat) : List Nat :=
  (List.range (c.Xdim + 1 - r)).flatMap (fun i =>
    (List.range (c.Ydim + 1 - r)).flatMap (fun j =>
      (List.range (c.Zdim + 1 - r)).map (fun k =>
        windowMass c r i j k)))

/-- Modelled from the spec: `n_boxes`, the number of valid window
positions for box size `r`. -/
def nBoxes (c : OccupancyCube) (r : Nat) : Nat :=
  (boxMasses c r).length

/-- Modelled from the spec: the first moment accumulator — the sum of
the masses of all windows of size `r`. -/
def massSum (c : OccupancyCube) (r : Nat) : Nat :=
  (boxMasses c r).sum

/-- Modelled from the spec: the second moment accumulator — the sum of
the squared masses of all windows of size `r`. -/
def massSqSum (c : OccupancyCube) (r : Nat) : Nat :=
  ((boxMasses c r).map (fun m => m * m)).sum

/-- Modelled from the spec: `mean = sum(mass)/n_boxes`; the NaN sentinel
(`none`) when there is no window. -/
def meanMass (c : OccupancyCube) (r : Nat) : Option ℚ :=
  if nBoxes c r = 0 then none
  else some ((massSum c r : ℚ) / (nBoxes c r : ℚ))

/-- Modelled from the spec:
`variance = sum(mass²)/n_boxes − mean²` (population variance, not
sample); the NaN sentinel (`none`) when there is no window. -/
def variance (c : OccupancyCube) (r : Nat) : Option ℚ :=
  if nBoxes c r = 0 then none
  else some ((massSqSum c r : ℚ) / (nBoxes c r : ℚ)
    - ((massSum c r : ℚ) / (nBoxes c r : ℚ)) ^ 2)

/-- Modelled from the spec:
`lacunarity = variance/mean² + 1` when `mean > 0`, else the NaN
sentinel (`none`), with no failure. -/
def lacunarity (c : OccupancyCube) (r : Nat) : Option ℚ :=
  match meanMass c r, variance c r with
  | some m, some v => if 0 < m then some (v / m ^ 2 + 1) else none
  | _, _ => none

/-- Modelled from the spec: one `ResultTable` record, with columns
`box_size`, `n_boxes`, `mean_mass`, `lacunarity`.  `box_size` keeps the
caller-supplied (host `IntegerVector`) value. -/
structure LacRecord where
  box_size : Int
  n_boxes : Nat
  mean_mass : Option ℚ
  lacunarity : Option ℚ
deriving DecidableEq, Repr

/-- Modelled from the spec: the error taxonomy — the only failure mode
is `InvalidArgument`. -/
inductive LacError where
  | invalidArgument
deriving DecidableEq, Repr

/-- Modelled from the spec: the record produced for one box size `r`
(validation of `r > 0` has already happened in `compute`). -/
def computeRecord (c : OccupancyCube) (r : Int) : LacRecord :=
  { box_size := r
    n_boxes := nBoxes c r.toNat
    mean_mass := meanMass c r.toNat
    lacunarity := lacunarity c r.toNat }

/-- Modelled from the spec: the missing body of `gliding_box`, i.e. the
operation `compute(cube, sizes) -> ResultTable` of the
`GlidingBoxAnalyzer`.  A null/absent cube, a non-positive cube
dimension, or a non-positive box size fails with `InvalidArgument`
before any record is produced; otherwise one record per entry of
`sizes`, in order. -/
def compute (cube : Option OccupancyCube) (sizes : List Int) :
    Except LacError (List LacRecord) :=
  match cube with
  | none => .error .invalidArgument
  | some c =>
    if c.Xdim = 0 ∨ c.Ydim = 0 ∨ c.Zdim = 0 then .error .invalidArgument
    else if sizes.any (fun r => r ≤ 0) then .error .invalidArgument
    else .ok (sizes.map (computeRecord c))

/-- Modelled from the spec: the declared native routine
`DataFrame gliding_box(arma::ucube C, IntegerVector box_sizes)` whose
body is missing from the provided sources; it is the
`GlidingBoxAnalyzer.compute` operation.  A null/absent host cube is
`none`. -/
def gliding_box (C : Option OccupancyCube) (box_sizes : List Int) :
    Except LacError (List LacRecord) :=
  compute C box_sizes

/-- What the host environment receives back from the exported wrapper:
either the wrapped `DataFrame` value, or a host-environment error
condition raised synchronously (never a process crash). -/
inductive HostResult where
  | value (t : List LacRecord)
  | hostError (e : LacError)
deriving DecidableEq, Repr

/-- The `BEGIN_RCPP`/`END_RCPP` envelope of `RcppExports.cpp`: a thrown
C++ exception is caught and converted into a host-environment error
returned to the immediate caller; a normal result is wrapped with
`Rcpp::wrap`. -/
def rcppEnvelope (r : Except LacError (List LacRecord)) : HostResult :=
  match r with
  | .ok t => .value t
  | .error e => .hostError e

/-- Embedding of the exported wrapper `_lacunaRity_gliding_box` from
`src/src/RcppExports.cpp` (lines 16–25): it converts the first SEXP
argument to an `arma::ucube` and the second to an `IntegerVector`
(already-marshalled values here), calls `gliding_box` on exactly those
two values inside the `BEGIN_RCPP`/`END_RCPP` envelope, and returns the
wrapped result.  It performs no validation of its own. -/
def lacunaRity_gliding_box (CSEXP : Option OccupancyCube)
    (box_sizesSEXP : List Int) : HostResult :=
  rcppEnvelope (gliding_box CSEXP box_sizesSEXP)

/-- One entry of the `R_CallMethodDef` table from `RcppExports.cpp`:
routine name, function pointer target (identified by name), declared
arity. -/
structure R_CallMethodDef where
  cname : String
  numArgs : Int
deriving DecidableEq, Repr

/-- Embedding of the `CallEntries` array from `src/src/RcppExports.cpp`
(lines 27–30).  The C array's `{NULL, NULL, 0}` terminator is the end
of the Lean list. -/
def CallEntries : List R_CallMethodDef :=
  [{ cname := "_lacunaRity_gliding_box", numArgs := 2 }]

/-- The registration state of the shared library as seen by the host:
the four routine tables of `R_registerRoutines` (`.C`, `.Call`,
`.Fortran`, external) and the dynamic-symbol-lookup flag. -/
structure DllInfo where
  cMethods : List R_CallMethodDef
  callMethods : List R_CallMethodDef
  fortranMethods : List R_CallMethodDef
  externalMethods : List R_CallMethodDef
  useDynamicSymbols : Bool
deriving DecidableEq, Repr

/-- Embedding of `R_registerRoutines(dll, croutines, callRoutines,
fortranRoutines, externalRoutines)`: installs the four routine tables
(a `NULL` table is the empty list). -/
def R_registerRoutines (dll : DllInfo)
    (croutines callRoutines fortranRoutines externalRoutines :
      List R_CallMethodDef) : DllInfo :=
  { dll with
    cMethods := croutines
    callMethods := callRoutines
    fortranMethods := fortranRoutines
    externalMethods := externalRoutines }

/-- Embedding of `R_useDynamicSymbols(dll, flag)`. -/
def R_useDynamicSymbols (dll : DllInfo) (flag : Bool) : DllInfo :=
  { dll with useDynamicSymbols := flag }

/-- Embedding of `R_init_lacunaRity` from `src/src/RcppExports.cpp`
(lines 32–35): registers `CallEntries` as the `.Call` routines (all
other tables `NULL`) and disables dynamic symbol lookup. -/
def R_init_lacunaRity (dll : DllInfo) : DllInfo :=
  R_useDynamicSymbols (R_registerRoutines dll [] CallEntries [] []) false

/-- The total value of all voxels of the cube (used to state the
`r = 1` specialization of the mean). -/
def totalVoxelSum (c : OccupancyCube) : Nat :=
  ((List.range c.Xdim).map (fun i =>
    ((List.range c.Ydim).map (fun j =>
      ((List.range c.Zdim).map (fun k =>
        c.voxel i j k)).sum)).sum)).sum

/-- A concrete 2×2×2 all-ones cube, used by the witnesses below. -/
def cubeOnes : OccupancyCube := ⟨2, 2, 2, fun _ _ _ => 1⟩

/-- Sum of a constant-valued map over `List.range`. -/
lemma sum_map_range_const (n : Nat) (f : Nat → Nat) (v : Nat)
    (h : ∀ t, t < n → f t = v) : ((List.range n).map f).sum = n * v := by
  rw [List.sum_eq_card_nsmul (((List.range n).map f)) v]
  · simp [smul_eq_mul]
  · intro x hx
    simp only [List.mem_map, List.mem_range] at hx
    obtain ⟨t, ht, rfl⟩ := hx
    exact h t ht

/-- Sums distribute over `flatMap`. -/
lemma sum_flatMap_nat {α : Type} (l : List α) (f : α → List Nat) :
    (l.flatMap f).sum = (l.map (fun a => (f a).sum)).sum := by
  rw [List.flatMap, List.sum_flatten, List.map_map]
  simp [Function.comp_def]

/-- The number of valid window positions is the product of the per-axis
position counts (truncated subtraction makes this hold for oversized
boxes too). -/
lemma nBoxes_eq (c : OccupancyCube) (r : Nat) :
    nBoxes c r
      = (c.Xdim + 1 - r) * ((c.Ydim + 1 - r) * (c.Zdim + 1 - r)) := by
  have h1 : ∀ n m : Nat, ((List.range n).map (fun _ => m)).sum = n * m := by
    intro n m
    exact sum_map_range_const n _ m (fun t _ => rfl)
  simp only [nBoxes, boxMasses, List.length_flatMap, Function.comp_def,
    List.length_map, List.length_range]
  simp only [h1]

/-- A window of edge 1 contains exactly one voxel. -/
lemma windowMass_one (c : OccupancyCube) (i j k : Nat) :
    windowMass c 1 i j k = c.voxel i j k := by
  simp [windowMass, List.range_succ]

/-- With box size 1 the total window mass is the total voxel sum. -/
lemma massSum_one (c : OccupancyCube) : massSum c 1 = totalVoxelSum c := by
  simp only [massSum, boxMasses, totalVoxelSum, Nat.add_sub_cancel,
    sum_flatMap_nat, windowMass_one]

/-- For an in-range box size there is at least one window position. -/
lemma nBoxes_pos (c : OccupancyCube) (r : Nat)
    (h1 : 1 ≤ r) (hr : r ≤ min c.Xdim (min c.Ydim c.Zdim)) :
    0 < nBoxes c r := by
  rw [nBoxes_eq]
  have hx : r ≤ c.Xdim := le_trans hr (Nat.min_le_left _ _)
  have hy : r ≤ c.Ydim :=
    le_trans hr (le_trans (Nat.min_le_right _ _) (Nat.min_le_left _ _))
  have hz : r ≤ c.Zdim :=
    le_trans hr (le_trans (Nat.min_le_right _ _) (Nat.min_le_right _ _))
  have : 0 < c.Xdim + 1 - r := by omega
  have : 0 < c.Ydim + 1 - r := by omega
  have : 0 < c.Zdim + 1 - r := by omega
  positivity

/-- Every window of an in-bounds position of a constant-valued cube has
mass `r * (r * (r * v))`. -/
lemma windowMass_const (c : OccupancyCube) (v r i j k : Nat)
    (hconst : ∀ a b d, a < c.Xdim → b < c.Ydim → d < c.Zdim →
      c.voxel a b d = v)
    (hi : i + r ≤ c.Xdim) (hj : j + r ≤ c.Ydim) (hk : k + r ≤ c.Zdim) :
    windowMass c r i j k = r * (r * (r * v)) := by
  unfold windowMass
  apply sum_map_range_const
  intro di hdi
  apply sum_map_range_const
  intro dj hdj
  apply sum_map_range_const
  intro dk hdk
  exact hconst _ _ _ (by omega) (by omega) (by omega)

/-- Every element of `boxMasses` of a constant-valued cube equals
`r * (r * (r * v))` (for an in-range box size). -/
lemma boxMasses_const (c : OccupancyCube) (v r : Nat)
    (hconst : ∀ a b d, a < c.Xdim → b < c.Ydim → d < c.Zdim →
      c.voxel a b d = v)
    (h1 : 1 ≤ r) (hr : r ≤ min c.Xdim (min c.Ydim c.Zdim)) :
    ∀ m ∈ boxMasses c r, m = r * (r * (r * v)) := by
  have hx : r ≤ c.Xdim := le_trans hr (Nat.min_le_left _ _)
  have hy : r ≤ c.Ydim :=
    le_trans hr (le_trans (Nat.min_le_right _ _) (Nat.min_le_left _ _))
  have hz : r ≤ c.Zdim :=
    le_trans hr (le_trans (Nat.min_le_right _ _) (Nat.min_le_right _ _))
  intro m hm
  simp only [boxMasses, List.mem_flatMap, List.mem_map, List.mem_range] at hm
  obtain ⟨i, hi, j, hj, k, hk, rfl⟩ := hm
  exact windowMass_const c v r i j k hconst (by omega) (by omega) (by omega)

example : nBoxes ⟨2, 2, 2, fun _ _ _ => 1⟩ 1 = 8 := by decide
example : nBoxes ⟨2, 2, 2, fun _ _ _ => 1⟩ 2 = 1 := by decide
example : massSum ⟨2, 2, 2, fun _ _ _ => 1⟩ 2 = 8 := by decide
example : lacunarity ⟨2, 2, 2, fun _ _ _ => 1⟩ 2 = some 1 := by
  norm_num [lacunarity, meanMass, variance, massSum, massSqSum, nBoxes,
    boxMasses, windowMass, List.range_succ]
example : nBoxes ⟨2, 2, 2, fun _ _ _ => 1⟩ 3 = 0 := by decide
example : lacunarity ⟨2, 2, 2, fun _ _ _ => 0⟩ 1 = none := by
  norm_num [lacunarity, meanMass, variance, massSum, massSqSum, nBoxes,
    boxMasses, windowMass, List.range_succ]

/-- Claim C1: for every cube with positive dimensions and every box size
`r` with `1 ≤ r ≤ min(X, Y, Z)`, the record `compute` returns for `r`
has `n_boxes = (X-r+1)·(Y-r+1)·(Z-r+1)` (the number of fully contained,
step-1, axis-aligned cubic windows of edge `r`) and
`mean_mass = (sum of all window masses) / n_boxes`; in particular for
`r = 1`, `n_boxes = X·Y·Z` and `mean_mass` is the mean voxel value of
the whole cube. -/
theorem compute_nBoxes_meanMass (c : OccupancyCube) (r : Nat)
    (hX : 0 < c.Xdim) (hY : 0 < c.Ydim) (hZ : 0 < c.Zdim)
    (h1 : 1 ≤ r) (hr : r ≤ min c.Xdim (min c.Ydim c.Zdim)) :
    (computeRecord c (r : Int)).n_boxes
        = (c.Xdim - r + 1) * (c.Ydim - r + 1) * (c.Zdim - r + 1) ∧
    (computeRecord c (r : Int)).mean_mass
        = some ((massSum c r : ℚ)
            / (((c.Xdim - r + 1) * (c.Ydim - r + 1) * (c.Zdim - r + 1)
                : Nat) : ℚ)) ∧
    (r = 1 →
      (computeRecord c (r : Int)).n_boxes = c.Xdim * c.Ydim * c.Zdim ∧
      (computeRecord c (r : Int)).mean_mass
        = some ((totalVoxelSum c : ℚ)
            / ((c.Xdim * c.Ydim * c.Zdim : Nat) : ℚ))) := by
  have hx : r ≤ c.Xdim := le_trans hr (Nat.min_le_left _ _)
  have hy : r ≤ c.Ydim :=
    le_trans hr (le_trans (Nat.min_le_right _ _) (Nat.min_le_left _ _))
  have hz : r ≤ c.Zdim :=
    le_trans hr (le_trans (Nat.min_le_right _ _) (Nat.min_le_right _ _))
  have hn : nBoxes c r
      = (c.Xdim - r + 1) * (c.Ydim - r + 1) * (c.Zdim - r + 1) := by
    rw [nBoxes_eq]
    have e1 : c.Xdim + 1 - r = c.Xdim - r + 1 := by omega
    have e2 : c.Ydim + 1 - r = c.Ydim - r + 1 := by omega
    have e3 : c.Zdim + 1 - r = c.Zdim - r + 1 := by omega
    rw [e1, e2, e3]; ring
  have hne : nBoxes c r ≠ 0 := Nat.pos_iff_ne_zero.mp (nBoxes_pos c r h1 hr)
  refine ⟨?_, ?_, ?_⟩
  · simp only [computeRecord, Int.toNat_natCast]
    exact hn
  · simp only [computeRecord, Int.toNat_natCast, meanMass]
    rw [if_neg hne, hn]
  · intro hr1
    subst hr1
    have hn1 : nBoxes c 1 = c.Xdim * c.Ydim * c.Zdim := by
      rw [hn]
      have e1 : c.Xdim - 1 + 1 = c.Xdim := by omega
      have e2 : c.Ydim - 1 + 1 = c.Ydim := by omega
      have e3 : c.Zdim - 1 + 1 = c.Zdim := by omega
      rw [e1, e2, e3]
    constructor
    · simp only [computeRecord, Int.toNat_natCast]
      exact hn1
    · simp only [computeRecord, Int.toNat_natCast, meanMass]
      rw [if_neg hne, massSum_one, hn1]

/-- Claim C1 witness: the general statement applied to the concrete
2×2×2 all-ones cube with box size 1. -/
theorem compute_nBoxes_meanMass_witness :
    (computeRecord cubeOnes ((1 : Nat) : Int)).n_boxes
        = (cubeOnes.Xdim - 1 + 1) * (cubeOnes.Ydim - 1 + 1)
            * (cubeOnes.Zdim - 1 + 1) ∧
    (computeRecord cubeOnes ((1 : Nat) : Int)).mean_mass
        = some ((massSum cubeOnes 1 : ℚ)
            / (((cubeOnes.Xdim - 1 + 1) * (cubeOnes.Ydim - 1 + 1)
                * (cubeOnes.Zdim - 1 + 1) : Nat) : ℚ)) ∧
    ((1 : Nat) = 1 →
      (computeRecord cubeOnes ((1 : Nat) : Int)).n_boxes
          = cubeOnes.Xdim * cubeOnes.Ydim * cubeOnes.Zdim ∧
      (computeRecord cubeOnes ((1 : Nat) : Int)).mean_mass
        = some ((totalVoxelSum cubeOnes : ℚ)
            / ((cubeOnes.Xdim * cubeOnes.Ydim * cubeOnes.Zdim : Nat)
                : ℚ))) :=
  compute_nBoxes_meanMass cubeOnes 1 (by decide) (by decide) (by decide)
    (by decide) (by decide)

/-- Claim C2: for every cube with positive dimensions and every box size
`r` with `1 ≤ r ≤ min(X, Y, Z)`: the variance is the population
variance `sum(mass²)/n_boxes − mean²`; the lacunarity of the returned
record is `variance/mean² + 1` when `mean > 0` and the NaN sentinel
when `mean = 0`; and `compute` raises no failure, returning the record
for `r`. -/
theorem compute_variance_lacunarity (c : OccupancyCube) (r : Nat)
    (hX : 0 < c.Xdim) (hY : 0 < c.Ydim) (hZ : 0 < c.Zdim)
    (h1 : 1 ≤ r) (hr : r ≤ min c.Xdim (min c.Ydim c.Zdim)) :
    variance c r
      = some ((massSqSum c r : ℚ) / (nBoxes c r : ℚ)
          - ((massSum c r : ℚ) / (nBoxes c r : ℚ)) ^ 2) ∧
    (∀ m v : ℚ, meanMass c r = some m → variance c r = some v →
      (0 < m →
        (computeRecord c (r : Int)).lacunarity = some (v / m ^ 2 + 1)) ∧
      (m = 0 → (computeRecord c (r : Int)).lacunarity = none)) ∧
    compute (some c) [(r : Int)] = .ok [computeRecord c (r : Int)] := by
  have hne : nBoxes c r ≠ 0 := Nat.pos_iff_ne_zero.mp (nBoxes_pos c r h1 hr)
  refine ⟨by simp only [variance, if_neg hne], ?_, ?_⟩
  · intro m v hm hv
    constructor
    · intro hmpos
      simp only [computeRecord, Int.toNat_natCast, lacunarity, hm, hv,
        if_pos hmpos]
    · intro hm0
      subst hm0
      simp only [computeRecord, Int.toNat_natCast, lacunarity, hm, hv,
        lt_self_iff_false, if_false]
  · have hdims : ¬(c.Xdim = 0 ∨ c.Ydim = 0 ∨ c.Zdim = 0) := by omega
    have hany : (([(r : Int)]).any (fun s => s ≤ 0)) = false := by
      simp only [List.any_cons, List.any_nil, Bool.or_false,
        decide_eq_false_iff_not, not_le]
      exact_mod_cast h1
    simp [compute, hdims, hany]

/-- Claim C2 witness: the general statement applied to the concrete
2×2×2 all-ones cube with box size 2. -/
theorem compute_variance_lacunarity_witness :
    (variance cubeOnes 2
      = some ((massSqSum cubeOnes 2 : ℚ) / (nBoxes cubeOnes 2 : ℚ)
          - ((massSum cubeOnes 2 : ℚ) / (nBoxes cubeOnes 2 : ℚ)) ^ 2) ∧
    (∀ m v : ℚ, meanMass cubeOnes 2 = some m → variance cubeOnes 2 = some v →
      (0 < m →
        (computeRecord cubeOnes ((2 : Nat) : Int)).lacunarity
          = some (v / m ^ 2 + 1)) ∧
      (m = 0 →
        (computeRecord cubeOnes ((2 : Nat) : Int)).lacunarity = none)) ∧
    compute (some cubeOnes) [((2 : Nat) : Int)]
      = .ok [computeRecord cubeOnes ((2 : Nat) : Int)]) :=
  compute_variance_lacunarity cubeOnes 2 (by decide) (by decide) (by decide)
    (by decide) (by decide)

/-- Claim C3: for every cube with positive dimensions and every box size
`r > min(X, Y, Z)`, `compute` does not fail: it still produces a result
row for `r` in which `n_boxes = 0` and `lacunarity` is the NaN
sentinel. -/
theorem compute_oversized_box (c : OccupancyCube) (r : Int)
    (hX : 0 < c.Xdim) (hY : 0 < c.Ydim) (hZ : 0 < c.Zdim)
    (hr : ((min c.Xdim (min c.Ydim c.Zdim) : Nat) : Int) < r) :
    compute (some c) [r] = .ok [computeRecord c r] ∧
    (computeRecord c r).n_boxes = 0 ∧
    (computeRecord c r).lacunarity = none := by
  have hmin : min c.Xdim (min c.Ydim c.Zdim) < r.toNat := by omega
  have h0 : nBoxes c r.toNat = 0 := by
    rw [nBoxes_eq]
    simp only [Nat.mul_eq_zero]
    omega
  refine ⟨?_, h0, ?_⟩
  · have hdims : ¬(c.Xdim = 0 ∨ c.Ydim = 0 ∨ c.Zdim = 0) := by omega
    have hrpos : ¬(r ≤ 0) := by omega
    simp [compute, hdims, hrpos]
  · simp only [computeRecord, lacunarity, meanMass, if_pos h0]

/-- Claim C3 witness: the concrete 2×2×2 all-ones cube with box size 3. -/
theorem compute_oversized_box_witness :
    compute (some cubeOnes) [3] = .ok [computeRecord cubeOnes 3] ∧
    (computeRecord cubeOnes 3).n_boxes = 0 ∧
    (computeRecord cubeOnes 3).lacunarity = none :=
  compute_oversized_box cubeOnes 3 (by decide) (by decide) (by decide)
    (by decide)

/-- Claim C4: `compute` fails — necessarily with `InvalidArgument`, the
only error — exactly when the cube is null/absent, or some cube
dimension is non-positive, or some requested box size is non-positive;
in the failing case no result table (not even a partial one) is
produced. -/
theorem compute_error_iff (cube : Option OccupancyCube) (sizes : List Int) :
    compute cube sizes = .error .invalidArgument ↔
      (cube = none
        ∨ (∃ c, cube = some c ∧ (c.Xdim = 0 ∨ c.Ydim = 0 ∨ c.Zdim = 0))
        ∨ (∃ s ∈ sizes, s ≤ 0)) := by
  cases cube with
  | none => simp [compute]
  | some c =>
    by_cases hd : c.Xdim = 0 ∨ c.Ydim = 0 ∨ c.Zdim = 0
    · simp [compute, hd]
    · by_cases ha : ∃ s ∈ sizes, s ≤ 0
      · have : sizes.any (fun s => s ≤ 0) = true := by
          simp only [List.any_eq_true, decide_eq_true_iff]
          exact ha
        simp [compute, hd, this, ha]
      · have : sizes.any (fun s => s ≤ 0) = false := by
          simp only [List.any_eq_false, decide_eq_true_eq]
          intro s hs h
          exact ha ⟨s, hs, h⟩
        simp [compute, hd, this, ha]

/-- Claim C5: for every cube in which every (in-bounds) voxel holds the
same constant value `c > 0`, and every box size `r` with
`1 ≤ r ≤ min(X, Y, Z)`, the record `compute` returns for `r` has
variance exactly 0 and lacunarity exactly 1. -/
theorem compute_uniform_cube (c : OccupancyCube) (cval r : Nat)
    (hc : 0 < cval)
    (hX : 0 < c.Xdim) (hY : 0 < c.Ydim) (hZ : 0 < c.Zdim)
    (hconst : ∀ a b d, a < c.Xdim → b < c.Ydim → d < c.Zdim →
      c.voxel a b d = cval)
    (h1 : 1 ≤ r) (hr : r ≤ min c.Xdim (min c.Ydim c.Zdim)) :
    variance c r = some 0 ∧
    (computeRecord c (r : Int)).lacunarity = some 1 := by
  have hmem : ∀ m ∈ boxMasses c r, m = r * (r * (r * cval)) :=
    boxMasses_const c cval r hconst h1 hr
  have hpos : 0 < nBoxes c r := nBoxes_pos c r h1 hr
  have hne : nBoxes c r ≠ 0 := Nat.pos_iff_ne_zero.mp hpos
  set M : Nat := r * (r * (r * cval)) with hM
  have hMpos : 0 < M := by
    have := Nat.one_le_iff_ne_zero.mp h1
    positivity
  have hsum : massSum c r = nBoxes c r * M := by
    unfold massSum nBoxes
    rw [List.sum_eq_card_nsmul (boxMasses c r) M hmem, smul_eq_mul]
  have hsq : massSqSum c r = nBoxes c r * (M * M) := by
    unfold massSqSum nBoxes
    rw [List.sum_eq_card_nsmul ((boxMasses c r).map (fun m => m * m)) (M * M)]
    · rw [List.length_map, smul_eq_mul]
    · intro x hx
      simp only [List.mem_map] at hx
      obtain ⟨m, hm, rfl⟩ := hx
      rw [hmem m hm]
  have hqne : ((nBoxes c r : ℚ)) ≠ 0 := Nat.cast_ne_zero.mpr hne
  have hmean : meanMass c r = some (M : ℚ) := by
    rw [meanMass, if_neg hne, hsum]
    congr 1
    push_cast
    field_simp
  have hvar : variance c r = some 0 := by
    rw [variance, if_neg hne, hsum, hsq]
    congr 1
    push_cast
    field_simp
    ring
  refine ⟨hvar, ?_⟩
  have hMq : (0 : ℚ) < (M : ℚ) := by exact_mod_cast hMpos
  simp only [computeRecord, Int.toNat_natCast, lacunarity, hmean, hvar,
    if_pos hMq]
  norm_num

/-- Claim C5 witness: a 2×2×2 cube constantly valued 5, box size 2. -/
theorem compute_uniform_cube_witness :
    variance ⟨2, 2, 2, fun _ _ _ => 5⟩ 2 = some 0 ∧
    (computeRecord ⟨2, 2, 2, fun _ _ _ => 5⟩ ((2 : Nat) : Int)).lacunarity
      = some 1 :=
  compute_uniform_cube ⟨2, 2, 2, fun _ _ _ => 5⟩ 5 2 (by decide) (by decide)
    (by decide) (by decide) (fun _ _ _ _ _ _ => rfl) (by decide) (by decide)

/-- Claim C6: whenever `compute` returns a table, it has exactly one row
per entry of the sizes list (duplicates included), in the same order:
the i-th row's `box_size` equals the i-th input size. -/
theorem compute_order_preserved (cube : OccupancyCube) (sizes : List Int)
    (table : List LacRecord) (h : compute (some cube) sizes = .ok table) :
    table.length = sizes.length ∧
    ∀ i : Nat, ∀ hi : i < table.length, ∀ hs : i < sizes.length,
      (table.get ⟨i, hi⟩).box_size = sizes.get ⟨i, hs⟩ := by
  simp only [compute] at h
  split_ifs at h
  simp only [Except.ok.injEq] at h
  subst h
  refine ⟨List.length_map _ _, ?_⟩
  intro i hi hs
  simp [List.get_eq_getElem, List.getElem_map, computeRecord]

/-- Claim C6 witness: the concrete 2×2×2 all-ones cube with the
duplicate-bearing sizes list `[1, 2, 1]`. -/
theorem compute_order_preserved_witness :
    (List.map (computeRecord cubeOnes) [1, 2, 1]).length
        = ([1, 2, 1] : List Int).length ∧
    ∀ i : Nat,
      ∀ hi : i < (List.map (computeRecord cubeOnes) [1, 2, 1]).length,
      ∀ hs : i < ([1, 2, 1] : List Int).length,
      ((List.map (computeRecord cubeOnes) [1, 2, 1]).get ⟨i, hi⟩).box_size
        = ([1, 2, 1] : List Int).get ⟨i, hs⟩ :=
  compute_order_preserved cubeOnes [1, 2, 1]
    (List.map (computeRecord cubeOnes) [1, 2, 1]) rfl

/-- Claim C7: for every cube with positive dimensions, `compute` with an
empty sizes list succeeds and returns the empty table. -/
theorem compute_empty_sizes (c : OccupancyCube)
    (hX : 0 < c.Xdim) (hY : 0 < c.Ydim) (hZ : 0 < c.Zdim) :
    compute (some c) [] = .ok [] := by
  have hdims : ¬(c.Xdim = 0 ∨ c.Ydim = 0 ∨ c.Zdim = 0) := by omega
  simp [compute, hdims]

/-- Claim C7 witness: the concrete 2×2×2 all-ones cube. -/
theorem compute_empty_sizes_witness :
    compute (some cubeOnes) [] = .ok [] :=
  compute_empty_sizes cubeOnes (by decide) (by decide) (by decide)

/-- Claim C8: the exported wrapper is a pure pass-through — it equals
the `BEGIN_RCPP`/`END_RCPP` envelope applied to `gliding_box` at
exactly the two converted arguments, and it performs no validation of
its own: a non-positive box-size entry reaches `gliding_box` unchecked,
whose own rejection is what surfaces; voxel values of a converted cube
are non-negative by the unsigned (`Nat`) element type. -/
theorem wrapper_passthrough (CSEXP : Option OccupancyCube)
    (box_sizesSEXP : List Int) :
    lacunaRity_gliding_box CSEXP box_sizesSEXP
        = rcppEnvelope (gliding_box CSEXP box_sizesSEXP) ∧
    ((∃ s ∈ box_sizesSEXP, s ≤ 0) →
      lacunaRity_gliding_box CSEXP box_sizesSEXP
        = .hostError .invalidArgument) ∧
    (∀ c, CSEXP = some c →
      ∀ i j k : Nat, (0 : Int) ≤ (c.voxel i j k : Int)) := by
  refine ⟨rfl, ?_, ?_⟩
  · rintro ⟨s, hs, hs0⟩
    have hany : box_sizesSEXP.any (fun t => t ≤ 0) = true := by
      simp only [List.any_eq_true, decide_eq_true_eq]
      exact ⟨s, hs, hs0⟩
    cases CSEXP with
    | none => rfl
    | some c =>
      by_cases hd : c.Xdim = 0 ∨ c.Ydim = 0 ∨ c.Zdim = 0 <;>
        simp [lacunaRity_gliding_box, gliding_box, compute, rcppEnvelope,
          hd, hany]
  · rintro c rfl i j k
    exact Int.natCast_nonneg _

/-- Claim C8 witness: a negative box size reaches `gliding_box` and its
rejection surfaces as the host error. -/
theorem wrapper_passthrough_witness :
    lacunaRity_gliding_box (some cubeOnes) [-1]
      = .hostError .invalidArgument :=
  (wrapper_passthrough (some cubeOnes) [-1]).2.1
    ⟨-1, by decide, by decide⟩

/-- Claim C9: whenever `gliding_box` throws, the wrapper's
`BEGIN_RCPP`/`END_RCPP` envelope converts the exception synchronously
into a host-environment error returned to the immediate caller — never
a crash of the host process. -/
theorem wrapper_catches_error (CSEXP : Option OccupancyCube)
    (box_sizesSEXP : List Int) (e : LacError)
    (h : gliding_box CSEXP box_sizesSEXP = .error e) :
    lacunaRity_gliding_box CSEXP box_sizesSEXP = .hostError e := by
  simp [lacunaRity_gliding_box, rcppEnvelope, h]

/-- Claim C9 witness: the `InvalidArgument` thrown for an absent cube is
converted into a host error. -/
theorem wrapper_catches_error_witness :
    lacunaRity_gliding_box none [] = .hostError .invalidArgument :=
  wrapper_catches_error none [] .invalidArgument rfl

/-- Claim C10: the registration table holds exactly one native routine,
named `_lacunaRity_gliding_box` with declared arity 2 (the C array's
`NULL` terminator being the end of the list), and `R_init_lacunaRity`
installs it as the only `.Call` routine (no `.C`, `.Fortran` or
external routines) with dynamic symbol lookup disabled. -/
theorem registration_single_entry (dll : DllInfo) :
    (R_init_lacunaRity dll).callMethods
        = [{ cname := "_lacunaRity_gliding_box", numArgs := 2 }] ∧
    CallEntries.length = 1 ∧
    (R_init_lacunaRity dll).useDynamicSymbols = false ∧
    (R_init_lacunaRity dll).cMethods = [] ∧
    (R_init_lacunaRity dll).fortranMethods = [] ∧
    (R_init_lacunaRity dll).externalMethods = [] := by
  simp [R_init_lacunaRity, R_registerRoutines, R_useDynamicSymbols,
    CallEntries]
